import Mathlib

/-!
Verification of the wardriving-triangulation pipeline in
`wigle2xy/wigle2xy.py`: a shallow embedding of the geodesy helpers, the
position estimator (`triangulate_position`), the observation aggregator and
pipeline driver (`parse_wigle_csv`), and the circle rasterizer
(`create_circle_coordinates`), together with theorems settling the spec's
claims about them.

Conventions of the embedding:
* Python floats are embedded as real numbers; decimal CSV field values are
  embedded as exact rationals (every such literal denotes a rational).
* A raw CSV record is a string-keyed mapping; each recognized field is either
  missing, present but not parseable as the required numeric type (Python's
  `float(...)`/`int(...)` raises `ValueError`), or present with a value.
* Fallible code is embedded with `Except`: `triangulate_position` raises
  `ValueError` on an empty list and `ZeroDivisionError` when an observation
  has accuracy exactly -1 (then `1/(accuracy + 1)` divides by zero).
* The per-record `try/except` of `parse_wigle_csv` is embedded as a total
  step function `processRecord` on the aggregation state; the state carries a
  count of the "Skipping malformed row" warnings that were printed.
-/

set_option maxHeartbeats 1000000

/-- A single observation of an access point (dataclass `APObservation`). -/
structure APObservation where
  latitude : ℚ
  longitude : ℚ
  signal_strength : ℤ
  accuracy : ℚ
deriving DecidableEq

/-- A triangulated access point (dataclass `TriangulatedAP`). -/
structure TriangulatedAP where
  mac : String
  ssid : String
  latitude : ℝ
  longitude : ℝ
  uncertainty : ℝ
  observation_count : ℕ

/-- Python's `math.atan2 y x`, i.e. the argument of the complex number
`x + y*i`, with values in `(-pi, pi]`. -/
noncomputable def atan2 (y x : ℝ) : ℝ := Complex.arg ⟨x, y⟩

/-- Python's `math.radians`. -/
noncomputable def radians (x : ℝ) : ℝ := x * Real.pi / 180

/-- Python's `math.degrees`. -/
noncomputable def degrees (x : ℝ) : ℝ := x * 180 / Real.pi

/-- Mean Earth radius in meters (`R = 6371000` in the source). -/
noncomputable def earthRadius : ℝ := 6371000

/-- The haversine intermediate `a` from `haversine_distance`. -/
noncomputable def haversineA (lat1 lon1 lat2 lon2 : ℝ) : ℝ :=
  Real.sin (radians (lat2 - lat1) / 2) ^ 2 +
    Real.cos (radians lat1) * Real.cos (radians lat2) *
      Real.sin (radians (lon2 - lon1) / 2) ^ 2

/-- `haversine_distance` from the source: great-circle distance in meters
between two (lat, lon) points given in degrees. -/
noncomputable def haversine_distance (lat1 lon1 lat2 lon2 : ℝ) : ℝ :=
  earthRadius *
    (2 * atan2 (Real.sqrt (haversineA lat1 lon1 lat2 lon2))
      (Real.sqrt (1 - haversineA lat1 lon1 lat2 lon2)))

/-- The raw per-observation weights of `triangulate_position`:
`10 ** (signal_strength / 10) * (1 / (accuracy + 1))`. -/
noncomputable def rawWeights (observations : List APObservation) : List ℝ :=
  observations.map (fun o =>
    (10 : ℝ) ^ ((o.signal_strength : ℝ) / 10) * (1 / ((o.accuracy : ℝ) + 1)))

/-- `total_weight = sum(weights)` in `triangulate_position`. -/
noncomputable def totalWeight (observations : List APObservation) : ℝ :=
  (rawWeights observations).sum

open scoped Classical in
/-- `normalized_weights` in `triangulate_position`: if the total weight is
exactly zero the code replaces the weights by `[1] * len(observations)` and
the total by `len(observations)` before dividing. -/
noncomputable def normalizedWeights (observations : List APObservation) : List ℝ :=
  if totalWeight observations = 0 then
    (List.replicate observations.length (1 : ℝ)).map
      (fun w => w / (observations.length : ℝ))
  else
    (rawWeights observations).map (fun w => w / totalWeight observations)

/-- `sum(f(obs) * w for obs, w in zip(observations, normalized_weights))`. -/
noncomputable def weightedCoord (f : APObservation → ℝ)
    (observations : List APObservation) : ℝ :=
  ((observations.zip (normalizedWeights observations)).map
    (fun p => f p.1 * p.2)).sum

/-- `weighted_lat` in `triangulate_position`. -/
noncomputable def weightedLat (observations : List APObservation) : ℝ :=
  weightedCoord (fun o => (o.latitude : ℝ)) observations

/-- `weighted_lon` in `triangulate_position`. -/
noncomputable def weightedLon (observations : List APObservation) : ℝ :=
  weightedCoord (fun o => (o.longitude : ℝ)) observations

/-- `distances` in `triangulate_position`: haversine distance from the
weighted centroid to each observation. -/
noncomputable def distancesFromCentroid (observations : List APObservation) : List ℝ :=
  observations.map (fun o =>
    haversine_distance (weightedLat observations) (weightedLon observations)
      (o.latitude : ℝ) (o.longitude : ℝ))

/-- `weighted_distance` in `triangulate_position`. -/
noncomputable def weightedSpread (observations : List APObservation) : ℝ :=
  (((distancesFromCentroid observations).zip (normalizedWeights observations)).map
    (fun p => p.1 * p.2)).sum

/-- `avg_gps_accuracy` in `triangulate_position`. -/
noncomputable def avgAccuracy (observations : List APObservation) : ℝ :=
  ((observations.map (fun o => (o.accuracy : ℝ))).sum) / (observations.length : ℝ)

/-- `uncertainty = weighted_distance + avg_gps_accuracy`. -/
noncomputable def uncertaintyOf (observations : List APObservation) : ℝ :=
  weightedSpread observations + avgAccuracy observations

/-- `triangulate_position` from the source. An empty list raises
`ValueError("No observations provided")`; an observation with accuracy
exactly -1 makes `1 / (obs.accuracy + 1)` raise `ZeroDivisionError`. -/
noncomputable def triangulate_position (observations : List APObservation) :
    Except String (ℝ × ℝ × ℝ) :=
  if observations = [] then Except.error "No observations provided"
  else if observations.any (fun o => decide (o.accuracy = -1)) then
    Except.error "float division by zero"
  else
    Except.ok (weightedLat observations, weightedLon observations,
      uncertaintyOf observations)

/-- One raw numeric CSV field: missing from the record, present but not
parseable as the required numeric type, or present with a value. -/
inductive RawField (α : Type) where
  | missing : RawField α
  | malformed : RawField α
  | value : α → RawField α
deriving DecidableEq

/-- `row.get(primary, row.get(fallback, dflt))` followed by the numeric
conversion: `none` means the conversion raised `ValueError`. -/
def RawField.resolve {α : Type} (primary fallback : RawField α) (dflt : α) :
    Option α :=
  match primary with
  | .value v => some v
  | .malformed => none
  | .missing =>
    match fallback with
    | .value v => some v
    | .malformed => none
    | .missing => some dflt

/-- One raw CSV record as seen by `parse_wigle_csv`, with the recognized
field aliases (`MAC`, `SSID`, `CurrentLatitude`/`Lat`,
`CurrentLongitude`/`Lon`, `RSSI`/`Signal`, `Accuracy`/`AccuracyMeters`). -/
structure RawRecord where
  mac : Option String
  ssid : Option String
  currentLatitude : RawField ℚ
  latAlias : RawField ℚ
  currentLongitude : RawField ℚ
  lonAlias : RawField ℚ
  rssi : RawField ℤ
  signalAlias : RawField ℤ
  accuracy : RawField ℚ
  accuracyMeters : RawField ℚ
deriving DecidableEq

/-- Python's `str.upper()` (ASCII case mapping, enough for MAC addresses). -/
def pyUpper (s : String) : String := ⟨s.data.map Char.toUpper⟩

/-- The whitespace characters `str.strip()` removes. -/
def pyIsSpace (c : Char) : Bool :=
  c = ' ' || c = '\t' || c = '\n' || c = '\r' || c = '\x0b' || c = '\x0c'

/-- Python's `str.strip()`: drop leading and trailing whitespace. -/
def pyStrip (s : String) : String :=
  ⟨((s.data.dropWhile pyIsSpace).reverse.dropWhile pyIsSpace).reverse⟩

/-- `row.get('MAC', '').strip().upper()`. -/
def macNorm (r : RawRecord) : String := pyUpper (pyStrip (r.mac.getD ""))

/-- `row.get('SSID', '').strip()`. -/
def ssidNorm (r : RawRecord) : String := pyStrip (r.ssid.getD "")

/-- `float(row.get('CurrentLatitude', row.get('Lat', 0)))`. -/
def resolvedLat (r : RawRecord) : Option ℚ :=
  RawField.resolve r.currentLatitude r.latAlias 0

/-- `float(row.get('CurrentLongitude', row.get('Lon', 0)))`. -/
def resolvedLon (r : RawRecord) : Option ℚ :=
  RawField.resolve r.currentLongitude r.lonAlias 0

/-- `int(row.get('RSSI', row.get('Signal', -100)))`. -/
def resolvedSignal (r : RawRecord) : Option ℤ :=
  RawField.resolve r.rssi r.signalAlias (-100)

/-- `float(row.get('Accuracy', row.get('AccuracyMeters', 10)))`. -/
def resolvedAccuracy (r : RawRecord) : Option ℚ :=
  RawField.resolve r.accuracy r.accuracyMeters 10

/-- Some required numeric conversion of the record raises `ValueError`. -/
def numericFailure (r : RawRecord) : Prop :=
  resolvedLat r = none ∨ resolvedLon r = none ∨
    resolvedSignal r = none ∨ resolvedAccuracy r = none

instance (r : RawRecord) : Decidable (numericFailure r) := by
  unfold numericFailure; infer_instance

/-- Association-list lookup, mirroring Python dict lookup with
insertion-ordered entries. -/
def alookup {β : Type} : List (String × β) → String → Option β
  | [], _ => none
  | (k, v) :: rest, key => if k = key then some v else alookup rest key

/-- `ap_observations[mac].append(observation)` on a `defaultdict(list)`:
append to the existing bucket, or create a new bucket at the end. -/
def appendObs : List (String × List APObservation) → String → APObservation →
    List (String × List APObservation)
  | [], mac, o => [(mac, [o])]
  | (k, obs) :: rest, mac, o =>
    if k = mac then (k, obs ++ [o]) :: rest
    else (k, obs) :: appendObs rest mac o

/-- In-place value update of an association list at a key (no-op if the key
is absent). -/
def aupdate {β : Type} : List (String × β) → String → β → List (String × β)
  | [], _, _ => []
  | (k, v) :: rest, key, newv =>
    if k = key then (k, newv) :: rest else (k, v) :: aupdate rest key newv

/-- The SSID bookkeeping of `parse_wigle_csv`:
`if mac not in ap_ssids and ssid: ap_ssids[mac] = ssid`
`elif mac in ap_ssids and not ap_ssids[mac] and ssid: ap_ssids[mac] = ssid`. -/
def storeSsid (l : List (String × String)) (mac ssid : String) :
    List (String × String) :=
  match alookup l mac with
  | none => if ssid ≠ "" then l ++ [(mac, ssid)] else l
  | some cur => if cur = "" ∧ ssid ≠ "" then aupdate l mac ssid else l

/-- The aggregation state of `parse_wigle_csv`: the `ap_observations`
defaultdict, the `ap_ssids` dict, and the number of "Skipping malformed row"
warnings printed so far. -/
structure AggState where
  apObservations : List (String × List APObservation)
  apSsids : List (String × String)
  warningCount : ℕ
deriving DecidableEq

/-- The aggregation state before any record is processed. -/
def initState : AggState := ⟨[], [], 0⟩

/-- The body of the per-record loop of `parse_wigle_csv` (one iteration,
including its `try/except (ValueError, KeyError)`). -/
def processRecord (st : AggState) (row : RawRecord) : AggState :=
  if macNorm row = "" then st
  else
    match resolvedLat row, resolvedLon row, resolvedSignal row,
        resolvedAccuracy row with
    | some lat, some lon, some sg, some acc =>
      if lat = 0 ∧ lon = 0 then st
      else
        { st with
          apObservations := appendObs st.apObservations (macNorm row) ⟨lat, lon, sg, acc⟩,
          apSsids := storeSsid st.apSsids (macNorm row) (ssidNorm row) }
    | _, _, _, _ => { st with warningCount := st.warningCount + 1 }

/-- Folding the per-record loop over a record sequence from a given state. -/
def aggregateFrom (st : AggState) (records : List RawRecord) : AggState :=
  records.foldl processRecord st

/-- The whole aggregation loop of `parse_wigle_csv`. -/
def aggregate (records : List RawRecord) : AggState :=
  aggregateFrom initState records

/-- The final loop of `parse_wigle_csv`: triangulate every identity whose
bucket has at least `min_observations` observations, in insertion order; an
exception from `triangulate_position` propagates to the caller. -/
noncomputable def triangulateAPs (ssids : List (String × String)) (minObs : ℤ) :
    List (String × List APObservation) → Except String (List TriangulatedAP)
  | [] => Except.ok []
  | (mac, observations) :: rest =>
    if minObs ≤ (observations.length : ℤ) then
      match triangulate_position observations with
      | Except.error e => Except.error e
      | Except.ok (lat, lon, unc) =>
        match triangulateAPs ssids minObs rest with
        | Except.error e => Except.error e
        | Except.ok aps =>
          Except.ok (TriangulatedAP.mk mac ((alookup ssids mac).getD "")
            lat lon unc observations.length :: aps)
    else triangulateAPs ssids minObs rest

/-- `parse_wigle_csv` from the source, with the file boundary abstracted into
the record sequence: aggregate, then triangulate the qualifying identities. -/
noncomputable def parse_wigle_csv (records : List RawRecord)
    (min_observations : ℤ) : Except String (List TriangulatedAP) :=
  triangulateAPs (aggregate records).apSsids min_observations
    (aggregate records).apObservations

/-- The observation bucket the aggregation builds for an identity. -/
def aggObs (records : List RawRecord) (mac : String) : List APObservation :=
  (alookup (aggregate records).apObservations mac).getD []

/-- The `i`-th vertex generated by `create_circle_coordinates`. -/
noncomputable def circlePoint (lat lon radius_meters : ℝ) (num_points i : ℕ) :
    ℝ × ℝ :=
  (lat + degrees ((radius_meters * Real.cos (2 * Real.pi * (i : ℝ) / (num_points : ℝ))) /
      earthRadius),
   lon + degrees ((radius_meters * Real.sin (2 * Real.pi * (i : ℝ) / (num_points : ℝ))) /
      (earthRadius * Real.cos (radians lat))))

/-- `create_circle_coordinates` from the source: `num_points + 1` vertices of
the approximating polygon (the `+ 1` closes the circle). -/
noncomputable def create_circle_coordinates (lat lon radius_meters : ℝ)
    (num_points : ℕ) : List (ℝ × ℝ) :=
  (List.range (num_points + 1)).map (circlePoint lat lon radius_meters num_points)

/-- Spec-side view of one record's fate in the aggregator: `some (mac, ssid,
observation)` if the record is retained, `none` if it is skipped. -/
def retainedObs (r : RawRecord) : Option (String × String × APObservation) :=
  if macNorm r = "" then none
  else
    match resolvedLat r, resolvedLon r, resolvedSignal r, resolvedAccuracy r with
    | some lat, some lon, some sg, some acc =>
      if lat = 0 ∧ lon = 0 then none
      else some (macNorm r, ssidNorm r, ⟨lat, lon, sg, acc⟩)
    | _, _, _, _ => none

/-- Spec-side definition for the display-name policy: the first non-empty
SSID among the retained records of an identity, in input order. -/
def firstNonEmptySsid (records : List RawRecord) (mac : String) : Option String :=
  (records.filterMap (fun r =>
    match retainedObs r with
    | some (m, s, _) => if m = mac ∧ s ≠ "" then some s else none
    | none => none)).head?

/-- Invariants of the aggregation state: bucket keys are unique (it models a
dict), every bucket is non-empty, and every stored SSID is non-empty. -/
def AggInv (st : AggState) : Prop :=
  (st.apObservations.map Prod.fst).Nodup ∧
    (∀ p ∈ st.apObservations, p.2 ≠ ([] : List APObservation)) ∧
    (∀ p ∈ st.apSsids, p.2 ≠ "")

/-- Concrete observation used in witnesses. -/
def obsW : APObservation := ⟨1, 2, -50, 5⟩

/-- Concrete well-formed record used in witnesses and counterexamples. -/
def rW : RawRecord :=
  { mac := some "AB", ssid := some "Net",
    currentLatitude := .value 1, latAlias := .missing,
    currentLongitude := .value 2, lonAlias := .missing,
    rssi := .value (-50), signalAlias := .missing,
    accuracy := .value 5, accuracyMeters := .missing }

/-- The located access point `parse_wigle_csv [rW]` produces. -/
noncomputable def apW : TriangulatedAP :=
  { mac := "AB", ssid := "Net", latitude := ((1 : ℚ) : ℝ),
    longitude := ((2 : ℚ) : ℝ), uncertainty := ((5 : ℚ) : ℝ),
    observation_count := 1 }

/-- A record whose MAC field is whitespace only: its identity is empty after
trim-and-uppercase normalization. -/
def rNoMac : RawRecord :=
  { mac := some "   ", ssid := some "Net",
    currentLatitude := .value 1, latAlias := .missing,
    currentLongitude := .value 2, lonAlias := .missing,
    rssi := .value (-50), signalAlias := .missing,
    accuracy := .value 5, accuracyMeters := .missing }

/-- A record whose RSSI field is present but not parseable as an integer. -/
def rBadSignal : RawRecord :=
  { mac := some "AB", ssid := some "Net",
    currentLatitude := .value 1, latAlias := .missing,
    currentLongitude := .value 2, lonAlias := .missing,
    rssi := .malformed, signalAlias := .missing,
    accuracy := .missing, accuracyMeters := .missing }

/-- A record with latitude and longitude both exactly zero ("no fix"). -/
def rZeroZero : RawRecord :=
  { mac := some "AB", ssid := some "Net",
    currentLatitude := .value 0, latAlias := .missing,
    currentLongitude := .value 0, lonAlias := .missing,
    rssi := .value (-50), signalAlias := .missing,
    accuracy := .value 5, accuracyMeters := .missing }

/-- A record where signal and accuracy fields are all absent, so both
defaults apply. -/
def rDefaults : RawRecord :=
  { mac := some "AB", ssid := some "",
    currentLatitude := .value 1, latAlias := .missing,
    currentLongitude := .value 2, lonAlias := .missing,
    rssi := .missing, signalAlias := .missing,
    accuracy := .missing, accuracyMeters := .missing }

/-- Two observations with signal 0 dBm and accuracies 0 and -2: their raw
weights are `1` and `-1`, so the total weight collapses to zero. -/
def obsZ1 : APObservation := ⟨3, 4, 0, 0⟩

/-- See `obsZ1`. -/
def obsZ2 : APObservation := ⟨5, 6, 0, -2⟩

/-- A non-trivial aggregation state used in witnesses. -/
def stW : AggState :=
  { apObservations := [("X", [⟨1, 1, -40, 3⟩])],
    apSsids := [("X", "Foo")], warningCount := 2 }

/-- `atan2 0 1 = 0`: the argument of the complex number `1`. -/
theorem atan2_zero_one : atan2 0 1 = 0 := by
  unfold atan2
  have h : (⟨1, 0⟩ : ℂ) = 1 := by
    apply Complex.ext <;> simp
  rw [h, Complex.arg_one]

/-- The haversine intermediate vanishes on identical points. -/
theorem haversineA_self (lat lon : ℝ) : haversineA lat lon lat lon = 0 := by
  unfold haversineA radians
  simp

/-- The haversine intermediate is symmetric in its two points. -/
theorem haversineA_comm (lat1 lon1 lat2 lon2 : ℝ) :
    haversineA lat1 lon1 lat2 lon2 = haversineA lat2 lon2 lat1 lon1 := by
  unfold haversineA
  have h1 : radians (lat1 - lat2) = -(radians (lat2 - lat1)) := by
    unfold radians; ring
  have h2 : radians (lon1 - lon2) = -(radians (lon2 - lon1)) := by
    unfold radians; ring
  rw [h1, h2, neg_div, Real.sin_neg, neg_div, Real.sin_neg, neg_sq, neg_sq]
  ring

/-- The distance from a point to itself is exactly zero. -/
theorem haversine_self (lat lon : ℝ) : haversine_distance lat lon lat lon = 0 := by
  unfold haversine_distance
  rw [haversineA_self]
  simp [atan2_zero_one]

/-- The haversine distance is symmetric. -/
theorem haversine_comm (lat1 lon1 lat2 lon2 : ℝ) :
    haversine_distance lat1 lon1 lat2 lon2 = haversine_distance lat2 lon2 lat1 lon1 := by
  unfold haversine_distance
  rw [haversineA_comm]

/-- Claim C9: the Geodesy distance function is symmetric, and the distance
from any point to itself is exactly zero. -/
theorem distance_symm_self :
    (∀ lat1 lon1 lat2 lon2 : ℝ,
      haversine_distance lat1 lon1 lat2 lon2 = haversine_distance lat2 lon2 lat1 lon1) ∧
    (∀ lat lon : ℝ, haversine_distance lat lon lat lon = 0) :=
  ⟨haversine_comm, haversine_self⟩

/-- The first and last vertices of the 64-segment circle coincide. -/
theorem circlePoint_zero_eq_last (lat lon radius : ℝ) :
    circlePoint lat lon radius 64 0 = circlePoint lat lon radius 64 64 := by
  unfold circlePoint
  have e0 : 2 * Real.pi * ((0 : ℕ) : ℝ) / ((64 : ℕ) : ℝ) = 0 := by norm_num
  have e64 : 2 * Real.pi * ((64 : ℕ) : ℝ) / ((64 : ℕ) : ℝ) = 2 * Real.pi := by norm_num
  rw [e0, e64, Real.cos_zero, Real.sin_zero, Real.cos_two_pi, Real.sin_two_pi]

/-- Claim C8: for every center and radius, the circle polygon produced with
the default 64-segment sampling has exactly 65 points, and its first and
last points are identical (a closed ring). -/
theorem circle_ring_closed (lat lon radius : ℝ) :
    (create_circle_coordinates lat lon radius 64).length = 65 ∧
    (create_circle_coordinates lat lon radius 64)[0]? =
      (create_circle_coordinates lat lon radius 64)[64]? := by
  constructor
  · simp [create_circle_coordinates]
  · simp [create_circle_coordinates, List.getElem?_map, List.getElem?_range,
      circlePoint_zero_eq_last lat lon radius]

/-- Summing `f x * c` over a list zipped with constant weights `c`. -/
theorem zip_replicate_mul_sum {α : Type} (f : α → ℝ) (c : ℝ) (l : List α) :
    ((l.zip (List.replicate l.length c)).map (fun p => f p.1 * p.2)).sum =
      (l.map f).sum * c := by
  induction l with
  | nil => simp
  | cons a rest ih => simp [List.replicate_succ, ih, add_mul]

/-- In the zero-total-weight branch the normalized weights are all `1/N`. -/
theorem normalizedWeights_of_zero (observations : List APObservation)
    (h : totalWeight observations = 0) :
    normalizedWeights observations =
      List.replicate observations.length ((observations.length : ℝ))⁻¹ := by
  unfold normalizedWeights
  rw [if_pos h, List.map_replicate]
  simp [one_div]

/-- With constant weights `1/N` a weighted coordinate is the plain mean. -/
theorem weightedCoord_of_zero (f : APObservation → ℝ)
    (observations : List APObservation) (h : totalWeight observations = 0) :
    weightedCoord f observations =
      (observations.map f).sum / (observations.length : ℝ) := by
  unfold weightedCoord
  rw [normalizedWeights_of_zero observations h, zip_replicate_mul_sum,
    div_eq_mul_inv]

/-- Claim C6: if the raw weights sum to exactly zero, the estimator falls
back to equal weighting: every one of the `N` observations receives the
normalized weight `1/N` (which is positive, so every observation
contributes), and both centroid coordinates are plain arithmetic means. -/
theorem zero_total_weight_equal_split (observations : List APObservation)
    (h1 : observations ≠ []) (h2 : totalWeight observations = 0) :
    normalizedWeights observations =
      List.replicate observations.length ((observations.length : ℝ))⁻¹ ∧
    0 < ((observations.length : ℝ))⁻¹ ∧
    weightedLat observations =
      ((observations.map (fun o => (o.latitude : ℝ))).sum) / (observations.length : ℝ) ∧
    weightedLon observations =
      ((observations.map (fun o => (o.longitude : ℝ))).sum) / (observations.length : ℝ) := by
  refine ⟨normalizedWeights_of_zero observations h2, ?_, ?_, ?_⟩
  · have hpos : 0 < observations.length := List.length_pos.mpr h1
    have : (0 : ℝ) < (observations.length : ℝ) := by exact_mod_cast hpos
    exact inv_pos.mpr this
  · exact weightedCoord_of_zero _ observations h2
  · exact weightedCoord_of_zero _ observations h2

/-- Witness for claim C6 at a concrete two-observation list whose raw
weights cancel to a zero total. -/
theorem zero_total_weight_equal_split_witness :
    normalizedWeights [obsZ1, obsZ2] =
      List.replicate ([obsZ1, obsZ2].length) ((([obsZ1, obsZ2].length : ℕ) : ℝ))⁻¹ ∧
    0 < ((([obsZ1, obsZ2].length : ℕ) : ℝ))⁻¹ ∧
    weightedLat [obsZ1, obsZ2] =
      (([obsZ1, obsZ2].map (fun o => (o.latitude : ℝ))).sum) / (([obsZ1, obsZ2].length : ℕ) : ℝ) ∧
    weightedLon [obsZ1, obsZ2] =
      (([obsZ1, obsZ2].map (fun o => (o.longitude : ℝ))).sum) / (([obsZ1, obsZ2].length : ℕ) : ℝ) := by
  have h2 : totalWeight [obsZ1, obsZ2] = 0 := by
    unfold totalWeight rawWeights obsZ1 obsZ2
    norm_num [Real.rpow_zero]
  exact zero_total_weight_equal_split [obsZ1, obsZ2] (by simp) h2

/-- Evaluation of `triangulate_position` on a single observation whose
accuracy is non-negative (as the data model requires): the centroid is the
observation's coordinate and the uncertainty is its accuracy, exactly. -/
theorem triangulate_single (o : APObservation) (h : 0 ≤ o.accuracy) :
    triangulate_position [o] =
      Except.ok ((o.latitude : ℝ), (o.longitude : ℝ), (o.accuracy : ℝ)) := by
  have hacc : (0 : ℝ) ≤ (o.accuracy : ℝ) := by exact_mod_cast h
  have hne : ((o.accuracy : ℝ) + 1) ≠ 0 := by positivity
  have hw : rawWeights [o] = [totalWeight [o]] := by
    simp [totalWeight, rawWeights]
  have hwne : totalWeight [o] ≠ 0 := by
    have hx : totalWeight [o] =
        (10 : ℝ) ^ ((o.signal_strength : ℝ) / 10) * (1 / ((o.accuracy : ℝ) + 1)) := by
      simp [totalWeight, rawWeights]
    rw [hx]
    exact mul_ne_zero (ne_of_gt (Real.rpow_pos_of_pos (by norm_num) _))
      (one_div_ne_zero hne)
  have hnorm : normalizedWeights [o] = [1] := by
    unfold normalizedWeights
    rw [if_neg hwne, hw]
    simp [div_self hwne]
  have hlat : weightedLat [o] = (o.latitude : ℝ) := by
    simp [weightedLat, weightedCoord, hnorm]
  have hlon : weightedLon [o] = (o.longitude : ℝ) := by
    simp [weightedLon, weightedCoord, hnorm]
  have hunc : uncertaintyOf [o] = (o.accuracy : ℝ) := by
    unfold uncertaintyOf weightedSpread distancesFromCentroid avgAccuracy
    rw [hnorm, hlat, hlon]
    simp [haversine_self]
  have hm1 : o.accuracy ≠ -1 := by
    intro he
    rw [he] at h
    norm_num at h
  unfold triangulate_position
  rw [if_neg (by simp : ¬([o] = ([] : List APObservation)))]
  rw [if_neg (by simp [hm1])]
  rw [hlat, hlon, hunc]

/-- Claim C1: for an observation list of length exactly one, the estimator
returns that observation's latitude and longitude exactly, and the
uncertainty equals that observation's accuracy exactly (the weighted spread
term is zero). The hypothesis is the data model's `accuracy >= 0`. -/
theorem single_observation_exact (o : APObservation) (h : 0 ≤ o.accuracy) :
    triangulate_position [o] =
      Except.ok ((o.latitude : ℝ), (o.longitude : ℝ), (o.accuracy : ℝ)) :=
  triangulate_single o h

/-- Witness for claim C1 at the concrete observation `(40, -74, -50 dBm, 5 m)`. -/
theorem single_observation_exact_witness :
    0 ≤ ((5 : ℚ)) ∧
    triangulate_position [⟨40, -74, -50, 5⟩] =
      Except.ok ((((40 : ℚ)) : ℝ), (((-74 : ℚ)) : ℝ), (((5 : ℚ)) : ℝ)) :=
  ⟨by norm_num, single_observation_exact ⟨40, -74, -50, 5⟩ (by norm_num)⟩

/-- A record with an empty normalized identity is skipped silently. -/
theorem processRecord_of_noMac (st : AggState) (r : RawRecord)
    (h : macNorm r = "") : processRecord st r = st := by
  simp [processRecord, h]

/-- A record with a failing numeric conversion increments the warning count
and changes nothing else. -/
theorem processRecord_of_failure (st : AggState) (r : RawRecord)
    (hm : macNorm r ≠ "") (hf : numericFailure r) :
    processRecord st r = { st with warningCount := st.warningCount + 1 } := by
  rcases hl : resolvedLat r with _ | la <;>
    rcases ho : resolvedLon r with _ | lo <;>
    rcases hs : resolvedSignal r with _ | sg <;>
    rcases ha : resolvedAccuracy r with _ | ac <;>
    simp_all [processRecord, numericFailure, hm]

/-- A retained record appends its observation to the identity's bucket and
runs the SSID bookkeeping. -/
theorem processRecord_of_retained (st : AggState) (r : RawRecord)
    (mac ssid : String) (o : APObservation)
    (h : retainedObs r = some (mac, ssid, o)) :
    processRecord st r =
      { st with apObservations := appendObs st.apObservations mac o,
                apSsids := storeSsid st.apSsids mac ssid } := by
  by_cases hm : macNorm r = ""
  · simp [retainedObs, hm] at h
  · rcases hl : resolvedLat r with _ | la <;>
      rcases ho : resolvedLon r with _ | lo <;>
      rcases hs : resolvedSignal r with _ | sg <;>
      rcases ha : resolvedAccuracy r with _ | ac <;>
      simp_all [retainedObs, processRecord, hm]

/-- A skipped record never touches the observation buckets or the SSID map. -/
theorem processRecord_preserve_of_none (st : AggState) (r : RawRecord)
    (h : retainedObs r = none) :
    (processRecord st r).apObservations = st.apObservations ∧
    (processRecord st r).apSsids = st.apSsids := by
  by_cases hm : macNorm r = ""
  · simp [processRecord, hm]
  · rcases hl : resolvedLat r with _ | la <;>
      rcases ho : resolvedLon r with _ | lo <;>
      rcases hs : resolvedSignal r with _ | sg <;>
      rcases ha : resolvedAccuracy r with _ | ac <;>
      simp_all [retainedObs, processRecord, hm]

/-- Any of the three skip reasons makes the record not retained. -/
theorem retainedObs_eq_none_of_skip (r : RawRecord)
    (h : macNorm r = "" ∨ numericFailure r ∨
      (resolvedLat r = some 0 ∧ resolvedLon r = some 0)) :
    retainedObs r = none := by
  by_cases hm : macNorm r = ""
  · simp [retainedObs, hm]
  · rcases hl : resolvedLat r with _ | la <;>
      rcases ho : resolvedLon r with _ | lo <;>
      rcases hs : resolvedSignal r with _ | sg <;>
      rcases ha : resolvedAccuracy r with _ | ac <;>
      simp_all [retainedObs, numericFailure, hm]

/-- The SSID map after one step, as a function of the record's fate. -/
theorem processRecord_apSsids (st : AggState) (r : RawRecord) :
    (processRecord st r).apSsids =
      match retainedObs r with
      | some (m, s, _) => storeSsid st.apSsids m s
      | none => st.apSsids := by
  cases h : retainedObs r with
  | none => exact (processRecord_preserve_of_none st r h).2
  | some t =>
    obtain ⟨m, s, o⟩ := t
    rw [processRecord_of_retained st r m s o h]

/-- Claim C10: per-record processing is atomic. Whenever a record is
skipped for any reason (missing identity, numeric parse failure, or the
zero/zero coordinate pair), it contributes neither an observation to any
bucket nor a display name to any identity. -/
theorem skipped_record_atomic (st : AggState) (r : RawRecord)
    (h : macNorm r = "" ∨ numericFailure r ∨
      (resolvedLat r = some 0 ∧ resolvedLon r = some 0)) :
    (processRecord st r).apObservations = st.apObservations ∧
    (processRecord st r).apSsids = st.apSsids :=
  processRecord_preserve_of_none st r (retainedObs_eq_none_of_skip r h)

/-- Witness for claim C10: a whitespace-only-MAC record leaves a non-trivial
aggregation state untouched. -/
theorem skipped_record_atomic_witness :
    (processRecord stW rNoMac).apObservations = stW.apObservations ∧
    (processRecord stW rNoMac).apSsids = stW.apSsids :=
  skipped_record_atomic stW rNoMac (Or.inl (by decide))

/-- Counterexample to claim C3 as stated: the record `rNoMac`, whose
identity is empty after trim-and-uppercase normalization, is skipped (the
final state is the initial state) but NO warning is emitted - the warning
count stays zero, while the claim requires a warning for every malformed
record. -/
theorem missing_identity_no_warning_counterexample :
    aggregate [rNoMac] = initState ∧ (aggregate [rNoMac]).warningCount = 0 := by
  constructor <;> decide

/-- Claim C3 as amended: a record with a missing identity is skipped
silently (no warning); a record with a failing numeric conversion is skipped
WITH a warning; a record whose coordinates are both zero is skipped silently
(no warning); and in every case processing simply continues with the
remaining records. -/
theorem malformed_record_skip_policy (st : AggState) (r : RawRecord) :
    (macNorm r = "" → processRecord st r = st) ∧
    (macNorm r ≠ "" → numericFailure r →
      processRecord st r = { st with warningCount := st.warningCount + 1 }) ∧
    (macNorm r ≠ "" → ¬ numericFailure r → resolvedLat r = some 0 →
      resolvedLon r = some 0 → processRecord st r = st) ∧
    (∀ rest : List RawRecord,
      aggregateFrom st (r :: rest) = aggregateFrom (processRecord st r) rest) := by
  refine ⟨processRecord_of_noMac st r, processRecord_of_failure st r, ?_, fun rest => rfl⟩
  intro hm hnf hla hlo
  rcases hs : resolvedSignal r with _ | sg
  · exact absurd (by simp [numericFailure, hs]) hnf
  rcases ha : resolvedAccuracy r with _ | ac
  · exact absurd (by simp [numericFailure, ha]) hnf
  simp [processRecord, hm, hla, hlo, hs, ha]

/-- Witness for the amended claim C3, exercising all three skip reasons at
concrete records. -/
theorem malformed_record_skip_policy_witness :
    processRecord initState rNoMac = initState ∧
    processRecord initState rBadSignal =
      { initState with warningCount := initState.warningCount + 1 } ∧
    processRecord initState rZeroZero = initState ∧
    aggregateFrom initState [rNoMac] =
      aggregateFrom (processRecord initState rNoMac) [] :=
  ⟨(malformed_record_skip_policy initState rNoMac).1 (by decide),
   (malformed_record_skip_policy initState rBadSignal).2.1 (by decide) (by decide),
   (malformed_record_skip_policy initState rZeroZero).2.2.1 (by decide) (by decide)
     (by decide) (by decide),
   (malformed_record_skip_policy initState rNoMac).2.2.2 []⟩

/-- Counterexample to claim C5 as stated: the record `rBadSignal` has a
non-empty identity, valid coordinates, and an UNPARSEABLE signal-strength
field. The claim says it is retained with signal defaulted to -100 dBm; in
fact the record is skipped with a warning and no observation is stored. -/
theorem unparseable_signal_skipped_counterexample :
    (aggregate [rBadSignal]).apObservations = [] ∧
    (aggregate [rBadSignal]).warningCount = 1 := by
  constructor <;> decide

/-- Claim C5 as amended: ABSENT signal/accuracy fields default to -100 dBm
and 10 m respectively, and the record is retained with the resolved values;
but a PRESENT-yet-unparseable signal or accuracy field makes the record be
skipped with a warning instead of being defaulted. -/
theorem signal_accuracy_defaults (st : AggState) (r : RawRecord) :
    (r.rssi = RawField.missing → r.signalAlias = RawField.missing →
      resolvedSignal r = some (-100)) ∧
    (r.accuracy = RawField.missing → r.accuracyMeters = RawField.missing →
      resolvedAccuracy r = some 10) ∧
    (∀ la lo sg ac, macNorm r ≠ "" → resolvedLat r = some la →
      resolvedLon r = some lo → resolvedSignal r = some sg →
      resolvedAccuracy r = some ac → ¬(la = 0 ∧ lo = 0) →
      processRecord st r =
        { st with apObservations := appendObs st.apObservations (macNorm r) ⟨la, lo, sg, ac⟩,
                  apSsids := storeSsid st.apSsids (macNorm r) (ssidNorm r) }) ∧
    (macNorm r ≠ "" → (resolvedSignal r = none ∨ resolvedAccuracy r = none) →
      processRecord st r = { st with warningCount := st.warningCount + 1 }) := by
  refine ⟨?_, ?_, ?_, ?_⟩
  · intro h1 h2; simp [resolvedSignal, RawField.resolve, h1, h2]
  · intro h1 h2; simp [resolvedAccuracy, RawField.resolve, h1, h2]
  · intro la lo sg ac hm hla hlo hs ha hz
    simp [processRecord, hm, hla, hlo, hs, ha, hz]
  · intro hm hor
    exact processRecord_of_failure st r hm
      (by rcases hor with h | h
          · exact Or.inr (Or.inr (Or.inl h))
          · exact Or.inr (Or.inr (Or.inr h)))

/-- Witness for the amended claim C5: both defaults apply to `rDefaults`
(which is retained with signal -100 dBm and accuracy 10 m), and the
unparseable-signal record `rBadSignal` is skipped with a warning. -/
theorem signal_accuracy_defaults_witness :
    resolvedSignal rDefaults = some (-100) ∧
    resolvedAccuracy rDefaults = some 10 ∧
    processRecord initState rDefaults =
      { initState with
          apObservations := appendObs initState.apObservations (macNorm rDefaults)
            ⟨1, 2, -100, 10⟩,
          apSsids := storeSsid initState.apSsids (macNorm rDefaults) (ssidNorm rDefaults) } ∧
    processRecord initState rBadSignal =
      { initState with warningCount := initState.warningCount + 1 } :=
  ⟨(signal_accuracy_defaults initState rDefaults).1 rfl rfl,
   (signal_accuracy_defaults initState rDefaults).2.1 rfl rfl,
   (signal_accuracy_defaults initState rDefaults).2.2.1 1 2 (-100) 10
     (by decide) (by decide) (by decide)
     ((signal_accuracy_defaults initState rDefaults).1 rfl rfl)
     ((signal_accuracy_defaults initState rDefaults).2.1 rfl rfl) (by decide),
   (signal_accuracy_defaults initState rBadSignal).2.2.2 (by decide)
     (Or.inl (by decide))⟩

/-- A successful `alookup` comes from a member of the list. -/
theorem mem_of_alookup_eq_some {β : Type} (l : List (String × β)) (k : String)
    (v : β) (h : alookup l k = some v) : (k, v) ∈ l := by
  induction l with
  | nil => simp [alookup] at h
  | cons p rest ih =>
    obtain ⟨k2, v2⟩ := p
    by_cases hk : k2 = k
    · subst hk
      simp [alookup] at h
      simp [h]
    · simp [alookup, hk] at h
      simp [ih h]

/-- With unique keys, membership determines the lookup result. -/
theorem alookup_eq_some_of_mem {β : Type} (l : List (String × β)) (k : String)
    (v : β) (hnd : (l.map Prod.fst).Nodup) (hm : (k, v) ∈ l) :
    alookup l k = some v := by
  induction l with
  | nil => simp at hm
  | cons p rest ih =>
    obtain ⟨k2, v2⟩ := p
    simp at hm
    rcases hm with ⟨hk, hv⟩ | hm
    · subst hk; subst hv; simp [alookup]
    · have hk2 : k2 ≠ k := by
        intro he
        subst he
        have : k2 ∈ rest.map Prod.fst := by
          exact List.mem_map.mpr ⟨(k2, v), hm, rfl⟩
        simp at hnd
        exact hnd.1 v (by simpa using hm)
      simp [alookup, hk2]
      exact ih (by simp at hnd; exact hnd.2) hm

/-- `alookup` after appending a single pair at the end. -/
theorem alookup_append_single {β : Type} (l : List (String × β)) (k k2 : String)
    (v : β) :
    alookup (l ++ [(k, v)]) k2 =
      match alookup l k2 with
      | some w => some w
      | none => if k = k2 then some v else none := by
  induction l with
  | nil => simp [alookup]
  | cons p rest ih =>
    obtain ⟨k3, v3⟩ := p
    by_cases hk : k3 = k2
    · simp [alookup, hk]
    · simp [alookup, hk, ih]

/-- `aupdate` does not change lookups at other keys. -/
theorem alookup_aupdate_ne {β : Type} (l : List (String × β)) (key k : String)
    (v : β) (h : k ≠ key) : alookup (aupdate l key v) k = alookup l k := by
  induction l with
  | nil => simp [aupdate]
  | cons p rest ih =>
    obtain ⟨k3, v3⟩ := p
    by_cases hk : k3 = key
    · subst hk
      have hne : ¬ (k3 = k) := fun he => h he.symm
      simp [aupdate, alookup, hne]
    · by_cases hk2 : k3 = k <;> simp [aupdate, hk, alookup, hk2, ih, h]

/-- `appendObs` leaves the key sequence unchanged when the key is present,
and appends it at the end otherwise. -/
theorem appendObs_keys (l : List (String × List APObservation)) (mac : String)
    (o : APObservation) :
    (appendObs l mac o).map Prod.fst =
      if mac ∈ l.map Prod.fst then l.map Prod.fst else l.map Prod.fst ++ [mac] := by
  induction l with
  | nil => simp [appendObs]
  | cons p rest ih =>
    obtain ⟨k, obs⟩ := p
    by_cases hk : k = mac
    · simp [appendObs, hk]
    · have hne : ¬ (mac = k) := fun he => hk he.symm
      simp [appendObs, hk, ih, hne]
      by_cases hm : mac ∈ rest.map Prod.fst <;> simp [hm, hne]

/-- `appendObs` keeps every bucket non-empty. -/
theorem appendObs_nonempty (l : List (String × List APObservation))
    (mac : String) (o : APObservation)
    (h : ∀ p ∈ l, p.2 ≠ ([] : List APObservation)) :
    ∀ p ∈ appendObs l mac o, p.2 ≠ ([] : List APObservation) := by
  induction l with
  | nil =>
    intro p hp
    simp [appendObs] at hp
    rw [hp]
    simp
  | cons q rest ih =>
    obtain ⟨k, obs⟩ := q
    intro p hp
    simp only [appendObs] at hp
    by_cases hk : k = mac
    · rw [if_pos hk] at hp
      rcases List.mem_cons.mp hp with he | hm
      · rw [he]
        simp
      · exact h p (List.mem_cons_of_mem _ hm)
    · rw [if_neg hk] at hp
      rcases List.mem_cons.mp hp with he | hm
      · rw [he]
        exact h (k, obs) (by simp)
      · exact ih (fun p2 hp2 => h p2 (List.mem_cons_of_mem _ hp2)) p hm

/-- `appendObs` preserves uniqueness of the keys. -/
theorem appendObs_nodup (l : List (String × List APObservation)) (mac : String)
    (o : APObservation) (h : (l.map Prod.fst).Nodup) :
    ((appendObs l mac o).map Prod.fst).Nodup := by
  rw [appendObs_keys]
  by_cases hm : mac ∈ l.map Prod.fst
  · simp [hm, h]
  · simp [hm]
    exact List.Nodup.append h (List.nodup_singleton mac) (by simp [hm])

/-- `aupdate` keeps all values non-empty when the new value is non-empty. -/
theorem aupdate_ssid_nonempty (l : List (String × String)) (key v : String)
    (hv : v ≠ "") (h : ∀ p ∈ l, p.2 ≠ "") :
    ∀ p ∈ aupdate l key v, p.2 ≠ "" := by
  induction l with
  | nil =>
    intro p hp
    simp [aupdate] at hp
  | cons q rest ih =>
    obtain ⟨k, w⟩ := q
    intro p hp
    simp only [aupdate] at hp
    by_cases hk : k = key
    · rw [if_pos hk] at hp
      rcases List.mem_cons.mp hp with he | hm
      · rw [he]
        exact hv
      · exact h p (List.mem_cons_of_mem _ hm)
    · rw [if_neg hk] at hp
      rcases List.mem_cons.mp hp with he | hm
      · rw [he]
        exact h (k, w) (by simp)
      · exact ih (fun p2 hp2 => h p2 (List.mem_cons_of_mem _ hp2)) p hm

/-- `storeSsid` keeps all stored SSIDs non-empty. -/
theorem storeSsid_nonempty (l : List (String × String)) (mac ssid : String)
    (h : ∀ p ∈ l, p.2 ≠ "") : ∀ p ∈ storeSsid l mac ssid, p.2 ≠ "" := by
  intro p hp
  unfold storeSsid at hp
  cases hl : alookup l mac with
  | none =>
    rw [hl] at hp
    by_cases hs : ssid ≠ ""
    · rw [if_pos hs] at hp
      rcases List.mem_append.mp hp with hm | hm
      · exact h p hm
      · simp at hm
        rw [hm]
        exact hs
    · rw [if_neg hs] at hp
      exact h p hp
  | some cur =>
    rw [hl] at hp
    dsimp only at hp
    by_cases hc : cur = "" ∧ ssid ≠ ""
    · rw [if_pos hc] at hp
      exact aupdate_ssid_nonempty l mac ssid hc.2 h p hp
    · rw [if_neg hc] at hp
      exact h p hp

/-- One step of the aggregation preserves the state invariants. -/
theorem processRecord_inv (st : AggState) (r : RawRecord) (h : AggInv st) :
    AggInv (processRecord st r) := by
  obtain ⟨hnd, hne, hssid⟩ := h
  cases hro : retainedObs r with
  | none =>
    obtain ⟨h1, h2⟩ := processRecord_preserve_of_none st r hro
    refine ⟨by rw [h1]; exact hnd, by rw [h1]; exact hne, by rw [h2]; exact hssid⟩
  | some t =>
    obtain ⟨m, s, o⟩ := t
    rw [processRecord_of_retained st r m s o hro]
    exact ⟨appendObs_nodup _ m o hnd, appendObs_nonempty _ m o hne,
      storeSsid_nonempty _ m s hssid⟩

/-- Folding the aggregation preserves the state invariants. -/
theorem aggregateFrom_inv (records : List RawRecord) (st : AggState)
    (h : AggInv st) : AggInv (aggregateFrom st records) := by
  induction records generalizing st with
  | nil => exact h
  | cons r rest ih => exact ih (processRecord st r) (processRecord_inv st r h)

/-- The final aggregation state satisfies the invariants. -/
theorem aggregate_inv (records : List RawRecord) : AggInv (aggregate records) :=
  aggregateFrom_inv records initState ⟨by simp [initState], by simp [initState], by simp [initState]⟩

/-- Inversion for the final loop: every produced access point comes from a
bucket of the list that met the threshold, carries that bucket's length as
its observation count, and resolves its SSID from the SSID map. -/
theorem triangulateAPs_ok_mem (ssids : List (String × String)) (m : ℤ)
    (l : List (String × List APObservation)) (aps : List TriangulatedAP)
    (h : triangulateAPs ssids m l = Except.ok aps) :
    ∀ ap ∈ aps, ∃ obs, (ap.mac, obs) ∈ l ∧ ap.observation_count = obs.length ∧
      m ≤ (obs.length : ℤ) ∧ ap.ssid = (alookup ssids ap.mac).getD "" := by
  induction l generalizing aps with
  | nil =>
    simp only [triangulateAPs] at h
    cases h
    simp
  | cons p rest ih =>
    obtain ⟨mac, observations⟩ := p
    simp only [triangulateAPs] at h
    by_cases hq : m ≤ (observations.length : ℤ)
    · rw [if_pos hq] at h
      cases ht : triangulate_position observations with
      | error e =>
        rw [ht] at h
        cases h
      | ok t =>
        obtain ⟨lat, lon, unc⟩ := t
        rw [ht] at h
        dsimp only at h
        cases hr : triangulateAPs ssids m rest with
        | error e =>
          rw [hr] at h
          cases h
        | ok aps0 =>
          rw [hr] at h
          dsimp only at h
          cases h
          intro ap hap
          rcases List.mem_cons.mp hap with he | hm
          · subst he
            exact ⟨observations, by simp, rfl, hq, rfl⟩
          · obtain ⟨obs, hin, hcnt, hthr, hss⟩ := ih aps0 hr ap hm
            exact ⟨obs, List.mem_cons_of_mem _ hin, hcnt, hthr, hss⟩
    · rw [if_neg hq] at h
      intro ap hap
      obtain ⟨obs, hin, hcnt, hthr, hss⟩ := ih aps h ap hap
      exact ⟨obs, List.mem_cons_of_mem _ hin, hcnt, hthr, hss⟩

/-- Concrete evaluation of the aggregation on the single record `rW`. -/
theorem aggregate_rW :
    aggregate [rW] = { apObservations := [("AB", [obsW])],
                       apSsids := [("AB", "Net")], warningCount := 0 } := by
  decide

/-- Concrete evaluation of the driver on `[rW]` for thresholds at most 1:
the single identity qualifies and is triangulated. -/
theorem parse_rW_le_one (m : ℤ) (hm : m ≤ 1) :
    parse_wigle_csv [rW] m = Except.ok [apW] := by
  rw [parse_wigle_csv, aggregate_rW]
  dsimp only
  have hq : m ≤ ((([obsW] : List APObservation).length : ℕ) : ℤ) := by
    simpa using hm
  simp only [triangulateAPs]
  rw [if_pos hq, triangulate_single obsW (by decide)]
  simp [alookup, apW, obsW]

/-- Concrete evaluation of the driver on `[rW]` at threshold 3: the single
identity has one observation and is excluded, with no failure. -/
theorem parse_rW_three : parse_wigle_csv [rW] 3 = Except.ok [] := by
  rw [parse_wigle_csv, aggregate_rW]
  dsimp only
  have hq : ¬ ((3 : ℤ) ≤ ((([obsW] : List APObservation).length : ℕ) : ℤ)) := by
    simp
  simp only [triangulateAPs]
  rw [if_neg hq]

/-- Claim C2: for every record sequence and threshold at least 1, every
produced `TriangulatedAP` counts exactly the observations aggregated for its
identity and meets the threshold, and an identity whose aggregated bucket is
below the threshold never appears in the driver's output. -/
theorem observation_count_threshold (records : List RawRecord) (m : ℤ)
    (hm : 1 ≤ m) (aps : List TriangulatedAP)
    (h : parse_wigle_csv records m = Except.ok aps) :
    (∀ ap ∈ aps, ap.observation_count = (aggObs records ap.mac).length ∧
      m ≤ (ap.observation_count : ℤ)) ∧
    (∀ mac : String, ((aggObs records mac).length : ℤ) < m →
      ∀ ap ∈ aps, ap.mac ≠ mac) := by
  have hinv := aggregate_inv records
  rw [parse_wigle_csv] at h
  have hmem := triangulateAPs_ok_mem _ m _ aps h
  constructor
  · intro ap hap
    obtain ⟨obs, hin, hcnt, hthr, _⟩ := hmem ap hap
    have hl : alookup (aggregate records).apObservations ap.mac = some obs :=
      alookup_eq_some_of_mem _ _ _ hinv.1 hin
    rw [aggObs, hl]
    exact ⟨hcnt, by rw [hcnt]; exact_mod_cast hthr⟩
  · intro mac hlt ap hap he
    obtain ⟨obs, hin, hcnt, hthr, _⟩ := hmem ap hap
    rw [he] at hin
    have hl : alookup (aggregate records).apObservations mac = some obs :=
      alookup_eq_some_of_mem _ _ _ hinv.1 hin
    rw [aggObs, hl] at hlt
    exact absurd hthr (by simpa using not_le.mpr hlt)

/-- Witness for claim C2 at a concrete run: one record, threshold 3, empty
output. -/
theorem observation_count_threshold_witness :
    (∀ ap ∈ ([] : List TriangulatedAP),
      ap.observation_count = (aggObs [rW] ap.mac).length ∧
      (3 : ℤ) ≤ (ap.observation_count : ℤ)) ∧
    (∀ mac : String, ((aggObs [rW] mac).length : ℤ) < 3 →
      ∀ ap ∈ ([] : List TriangulatedAP), ap.mac ≠ mac) :=
  observation_count_threshold [rW] 3 (by norm_num) [] parse_rW_three

/-- With every bucket non-empty, any threshold below 1 selects exactly the
same identities as threshold 1. -/
theorem triangulateAPs_low_threshold (ssids : List (String × String)) (m : ℤ)
    (hm : m < 1) (l : List (String × List APObservation))
    (h : ∀ p ∈ l, p.2 ≠ ([] : List APObservation)) :
    triangulateAPs ssids m l = triangulateAPs ssids 1 l := by
  induction l with
  | nil => simp [triangulateAPs]
  | cons p rest ih =>
    obtain ⟨mac, observations⟩ := p
    have hne : observations ≠ [] := h (mac, observations) (by simp)
    have hone : (1 : ℤ) ≤ (observations.length : ℤ) := by
      have := List.length_pos.mpr hne
      omega
    have hmle : m ≤ (observations.length : ℤ) := le_trans (le_of_lt hm) hone
    have ihr := ih (fun p hp => h p (List.mem_cons_of_mem _ hp))
    simp only [triangulateAPs]
    rw [if_pos hmle, if_pos hone, ihr]

/-- Counterexample to claim C4 as stated: calling the driver with
`min_observations = 0 < 1` does NOT surface a failure; it computes a normal
result (here one located access point from a single observation). -/
theorem low_threshold_no_failure_counterexample :
    parse_wigle_csv [rW] 0 = Except.ok [apW] :=
  parse_rW_le_one 0 (by norm_num)

/-- Claim C4 as amended: `parse_wigle_csv` performs no validation of
`min_observations`. A threshold below 1 is NOT a failure: the driver behaves
exactly as with threshold 1 (every aggregated identity has at least one
observation, so every identity qualifies either way). -/
theorem low_threshold_behaves_as_one (records : List RawRecord) (m : ℤ)
    (hm : m < 1) : parse_wigle_csv records m = parse_wigle_csv records 1 := by
  rw [parse_wigle_csv, parse_wigle_csv]
  exact triangulateAPs_low_threshold _ m hm _ (aggregate_inv records).2.1

/-- Witness for the amended claim C4 at threshold 0 on a concrete record. -/
theorem low_threshold_behaves_as_one_witness :
    parse_wigle_csv [rW] 0 = parse_wigle_csv [rW] 1 :=
  low_threshold_behaves_as_one [rW] 0 (by norm_num)

/-- `storeSsid` does not change lookups at other keys. -/
theorem storeSsid_lookup_other (l : List (String × String)) (mac ssid k : String)
    (hk : k ≠ mac) : alookup (storeSsid l mac ssid) k = alookup l k := by
  unfold storeSsid
  cases hl : alookup l mac with
  | none =>
    dsimp only
    by_cases hs : ssid ≠ ""
    · rw [if_pos hs, alookup_append_single]
      cases hx : alookup l k with
      | none =>
        dsimp only
        rw [if_neg (fun he : mac = k => hk he.symm)]
      | some w => rfl
    · rw [if_neg hs]
  | some cur =>
    dsimp only
    by_cases hc : cur = "" ∧ ssid ≠ ""
    · rw [if_pos hc]
      exact alookup_aupdate_ne l mac k ssid hk
    · rw [if_neg hc]

/-- Once a non-empty SSID is stored for an identity, `storeSsid` is a no-op
at that identity. -/
theorem storeSsid_stored (l : List (String × String)) (mac ssid s : String)
    (hl : alookup l mac = some s) (hs : s ≠ "") : storeSsid l mac ssid = l := by
  unfold storeSsid
  rw [hl]
  dsimp only
  rw [if_neg (by simp [hs])]

/-- Storing a non-empty SSID for a fresh identity makes it the stored one. -/
theorem storeSsid_new_nonempty (l : List (String × String)) (mac ssid : String)
    (hl : alookup l mac = none) (hs : ssid ≠ "") :
    alookup (storeSsid l mac ssid) mac = some ssid := by
  unfold storeSsid
  rw [hl]
  dsimp only
  rw [if_pos hs, alookup_append_single, hl]
  simp

/-- Storing an empty SSID for a fresh identity is a no-op. -/
theorem storeSsid_new_empty (l : List (String × String)) (mac : String)
    (hl : alookup l mac = none) : storeSsid l mac "" = l := by
  unfold storeSsid
  rw [hl]
  dsimp only
  rw [if_neg (by simp)]

/-- A skipped record contributes nothing to `firstNonEmptySsid`. -/
theorem firstNonEmptySsid_cons_none (r : RawRecord) (rest : List RawRecord)
    (mac : String) (h : retainedObs r = none) :
    firstNonEmptySsid (r :: rest) mac = firstNonEmptySsid rest mac := by
  unfold firstNonEmptySsid
  simp [h]

/-- A retained record contributes its SSID to `firstNonEmptySsid` exactly
when the identity matches and the SSID is non-empty. -/
theorem firstNonEmptySsid_cons_some (r : RawRecord) (rest : List RawRecord)
    (mac m s : String) (o : APObservation)
    (h : retainedObs r = some (m, s, o)) :
    firstNonEmptySsid (r :: rest) mac =
      if m = mac ∧ s ≠ "" then some s else firstNonEmptySsid rest mac := by
  unfold firstNonEmptySsid
  by_cases hc : m = mac ∧ s ≠ ""
  · simp [h, hc]
  · simp [h, hc]

/-- The SSID an identity carries after folding the aggregation from a state
with only non-empty stored SSIDs: whatever was already stored, or else the
first non-empty SSID among the retained records, in input order. -/
theorem ssid_lookup_fold (records : List RawRecord) (st : AggState)
    (hne : ∀ p ∈ st.apSsids, p.2 ≠ "") (mac : String) :
    alookup (aggregateFrom st records).apSsids mac =
      match alookup st.apSsids mac with
      | some s => some s
      | none => firstNonEmptySsid records mac := by
  induction records generalizing st with
  | nil =>
    cases hx : alookup st.apSsids mac <;>
      simp [aggregateFrom, firstNonEmptySsid, hx]
  | cons r rest ih =>
    have hstep : aggregateFrom st (r :: rest) =
        aggregateFrom (processRecord st r) rest := rfl
    have hne2 : ∀ p ∈ (processRecord st r).apSsids, p.2 ≠ "" := by
      rw [processRecord_apSsids]
      cases hro : retainedObs r with
      | none => exact hne
      | some t =>
        obtain ⟨m, s, o⟩ := t
        exact storeSsid_nonempty st.apSsids m s hne
    rw [hstep, ih (processRecord st r) hne2, processRecord_apSsids]
    cases hro : retainedObs r with
    | none =>
      dsimp only
      rw [firstNonEmptySsid_cons_none r rest mac hro]
    | some t =>
      obtain ⟨m, s, o⟩ := t
      dsimp only
      rw [firstNonEmptySsid_cons_some r rest mac m s o hro]
      by_cases hm : m = mac
      · subst hm
        cases hl : alookup st.apSsids m with
        | some v =>
          have hv : v ≠ "" := hne (m, v) (mem_of_alookup_eq_some _ _ _ hl)
          simp [storeSsid_stored st.apSsids m s v hl hv, hl]
        | none =>
          by_cases hs : s ≠ ""
          · simp [storeSsid_new_nonempty st.apSsids m s hl hs, hl, hs]
          · push_neg at hs
            subst hs
            simp [storeSsid_new_empty st.apSsids m hl, hl]
      · rw [storeSsid_lookup_other st.apSsids m s mac (fun he => hm he.symm)]
        cases hx : alookup st.apSsids mac <;> simp [hx, hm]

/-- Claim C7: every access point in the driver's output carries as display
name the first non-empty SSID among its identity's retained records, in
input order (empty if none); and once a non-empty SSID is stored for an
identity, processing one more record never overwrites it. -/
theorem display_name_policy (records : List RawRecord) (m : ℤ)
    (aps : List TriangulatedAP) (h : parse_wigle_csv records m = Except.ok aps) :
    (∀ ap ∈ aps, ap.ssid = (firstNonEmptySsid records ap.mac).getD "") ∧
    (∀ (st : AggState) (mac s : String) (r : RawRecord),
      alookup st.apSsids mac = some s → s ≠ "" →
      alookup (processRecord st r).apSsids mac = some s) := by
  constructor
  · intro ap hap
    rw [parse_wigle_csv] at h
    obtain ⟨obs, hin, hcnt, hthr, hss⟩ :=
      triangulateAPs_ok_mem _ m _ aps h ap hap
    rw [hss]
    have hfold := ssid_lookup_fold records initState (by simp [initState]) ap.mac
    have hinit : alookup initState.apSsids ap.mac = none := rfl
    rw [hinit] at hfold
    rw [show aggregate records = aggregateFrom initState records from rfl, hfold]
  · intro st mac s r hl hs
    rw [processRecord_apSsids]
    cases hro : retainedObs r with
    | none => exact hl
    | some t =>
      obtain ⟨m2, s2, o⟩ := t
      dsimp only
      by_cases hm : m2 = mac
      · subst hm
        rw [storeSsid_stored st.apSsids m2 s2 s hl hs]
        exact hl
      · rw [storeSsid_lookup_other st.apSsids m2 s2 mac (fun he => hm he.symm)]
        exact hl

/-- Witness for claim C7 at a concrete run producing one access point. -/
theorem display_name_policy_witness :
    (∀ ap ∈ [apW], ap.ssid = (firstNonEmptySsid [rW] ap.mac).getD "") ∧
    (∀ (st : AggState) (mac s : String) (r : RawRecord),
      alookup st.apSsids mac = some s → s ≠ "" →
      alookup (processRecord st r).apSsids mac = some s) :=
  display_name_policy [rW] 1 [apW] (parse_rW_le_one 1 (by norm_num))
